import Mathlib

set_option maxRecDepth 8000

/-! Shallow embedding of `src/bricklayers.py` (the "Bricklayers" G-code
post-processor) and proofs about it.

Modelling conventions:
* Python floats are modelled as exact fixed-point decimals (`FixedDec`:
  an integer mantissa with a power-of-ten exponent).  Every numeric
  operation the script performs — decimal parsing via `float`,
  `layer_height * 0.5`, `current_z + z_shift`, `e_value *
  extrusion_multiplier`, and `%.3f` / `%.5f` formatting — is closed
  under this representation, and on the decimal inputs used below it
  agrees digit-for-digit with IEEE double arithmetic.
* A Python exception (the `ValueError` that `float` raises on a
  malformed numeral such as `"1.2.3"`) is modelled as
  `Except.error ()`.
* File input/output and logging are outside the rewriting core and are
  omitted; `process_gcode` maps the list of input lines to the list of
  output lines (`modified_lines` in the source).  The detected printer
  type is computed by `detect_printer_type` but — exactly as in the
  source — never influences the rewrite.
* Lines carry whatever trailing `"\n"` the caller gives them; the
  synthetic lines and the rewritten-line annotation end in `"\n"`
  exactly as the source's f-strings do.
-/

/-- Boolean test that the first list is a leading segment of the second
(character-wise). -/
def charsHasPre : List Char → List Char → Bool
  | [], _ => true
  | _ :: _, [] => false
  | p :: ps, c :: cs => p == c && charsHasPre ps cs

/-- Boolean test that `pat` occurs contiguously somewhere inside the
second list; this is Python's `pat in s` on strings. -/
def charsHasSub (pat : List Char) : List Char → Bool
  | [] => charsHasPre pat []
  | c :: cs => charsHasPre pat (c :: cs) || charsHasSub pat cs

/-- Python's `pat in s` substring test. -/
def strContains (s pat : String) : Bool := charsHasSub pat.data s.data

/-- Python's `s.startswith(pat)`. -/
def strStarts (s pat : String) : Bool := charsHasPre pat.data s.data

/-- Remove the literal `lit` from the front of a character list,
returning the remainder, or `none` if `lit` is not there. -/
def chopLit : List Char → List Char → Option (List Char)
  | [], s => some s
  | _ :: _, [] => none
  | p :: ps, c :: cs => if p == c then chopLit ps cs else none

/-- Split a character list into its maximal leading run of characters
satisfying `p` and the rest. -/
def spanCls (p : Char → Bool) : List Char → List Char × List Char
  | [] => ([], [])
  | c :: cs =>
    if p c then
      let r := spanCls p cs
      (c :: r.1, r.2)
    else ([], c :: cs)

/-- Leftmost match of the regular-expression shape `lit([cls]+)` in a
character list: find the first position where the literal `lit` occurs
immediately followed by at least one character of the class `cls`, and
return the maximal (greedy) class run that follows the literal.  This
is `re.search` for the two patterns the source uses, which both have
this shape. -/
def searchNum (lit : List Char) (cls : Char → Bool) : List Char → Option (List Char)
  | [] => none
  | c :: cs =>
    match chopLit lit (c :: cs) with
    | some rest =>
      let cap := (spanCls cls rest).1
      if cap = [] then searchNum lit cls cs else some cap
    | none => searchNum lit cls cs

/-- Character class `[\d.]` of the Z-height pattern. -/
def clsZ (c : Char) : Bool := c.isDigit || c == '.'

/-- Character class `[-\d.]` of the extrusion pattern. -/
def clsE (c : Char) : Bool := c.isDigit || c == '.' || c == '-'

/-- Does the list start with a character of the extrusion class? -/
def headClsE : List Char → Bool
  | [] => false
  | c :: _ => clsE c

/-- Worker for `re.sub(r'E[-\d.]+', repl, s)`: replace every
non-overlapping leftmost occurrence of `E` followed by a nonempty
greedy `[-\d.]` run by `repl`.  The boolean state records whether we
are currently consuming the class run of a match already replaced. -/
def reSubEGo (repl : List Char) : Bool → List Char → List Char
  | _, [] => []
  | true, c :: cs =>
    if clsE c then reSubEGo repl true cs
    else if c == 'E' && headClsE cs then repl ++ reSubEGo repl true cs
    else c :: reSubEGo repl false cs
  | false, c :: cs =>
    if c == 'E' && headClsE cs then repl ++ reSubEGo repl true cs
    else c :: reSubEGo repl false cs

/-- Python whitespace characters removed by `str.strip()`. -/
def isPyWs (c : Char) : Bool :=
  c == ' ' || c == '\t' || c == '\n' || c == '\r' || c == '\x0b' || c == '\x0c'

/-- Python's `s.strip()` on a character list. -/
def pyStrip (cs : List Char) : List Char :=
  ((cs.dropWhile isPyWs).reverse.dropWhile isPyWs).reverse

/-- Decimal digit to its character. -/
def digitChar (d : Nat) : Char :=
  if d = 0 then '0' else if d = 1 then '1' else if d = 2 then '2'
  else if d = 3 then '3' else if d = 4 then '4' else if d = 5 then '5'
  else if d = 6 then '6' else if d = 7 then '7' else if d = 8 then '8'
  else if d = 9 then '9' else '*'

/-- Fuel-driven decimal rendering of a natural number (most significant
digit first); the fuel `n + 1` always suffices. -/
def natDigitsAux : Nat → Nat → List Char → List Char
  | 0, _, acc => acc
  | fuel + 1, n, acc =>
    if n < 10 then digitChar n :: acc
    else natDigitsAux fuel (n / 10) (digitChar (n % 10) :: acc)

/-- Decimal rendering of a natural number. -/
def natToStrChars (n : Nat) : List Char := natDigitsAux (n + 1) n []

/-- Exact decimal fixed-point number: `num / 10 ^ exp`.  This models the
Python floats flowing through the script. -/
structure FixedDec where
  num : Int
  exp : Nat
deriving DecidableEq, Repr

/-- Addition of fixed-point decimals (align exponents). -/
def FixedDec.add (a b : FixedDec) : FixedDec :=
  if a.exp ≤ b.exp then ⟨a.num * (10 : Int) ^ (b.exp - a.exp) + b.num, b.exp⟩
  else ⟨a.num + b.num * (10 : Int) ^ (a.exp - b.exp), a.exp⟩

/-- Multiplication of fixed-point decimals. -/
def FixedDec.mul (a b : FixedDec) : FixedDec := ⟨a.num * b.num, a.exp + b.exp⟩

/-- Round `n / d` to the nearest natural number, ties to even. -/
def roundHalfEvenNat (n d : Nat) : Nat :=
  let q := n / d
  let r := n % d
  if 2 * r < d then q
  else if d < 2 * r then q + 1
  else if q % 2 = 0 then q else q + 1

/-- Left-pad a digit list with `'0'` to width `k`. -/
def padZeros (cs : List Char) (k : Nat) : List Char :=
  List.replicate (k - cs.length) '0' ++ cs

/-- Python's `f"{x:.kf}"` fixed-width decimal formatting (`k ≥ 1`):
round the value to `k` decimal places (ties to even) and print it with
exactly `k` digits after the point. -/
def fmtChars (x : FixedDec) (k : Nat) : List Char :=
  let n := x.num.natAbs
  let m := if x.exp ≤ k then n * 10 ^ (k - x.exp) else roundHalfEvenNat n (10 ^ (x.exp - k))
  let ip := m / 10 ^ k
  let fp := m % 10 ^ k
  (if x.num < 0 then ['-'] else []) ++ natToStrChars ip ++ '.' :: padZeros (natToStrChars fp) k

/-- Value of a list of decimal digit characters. -/
def digitsVal (cs : List Char) : Nat :=
  cs.foldl (fun acc c => acc * 10 + (c.toNat - 48)) 0

/-- Maximal leading digit run and remainder. -/
def spanDigits : List Char → List Char × List Char
  | [] => ([], [])
  | c :: cs =>
    if c.isDigit then
      let r := spanDigits cs
      (c :: r.1, r.2)
    else ([], c :: cs)

/-- Python `float()` on an unsigned token drawn from the characters
`[0-9.-]`: accepts `digits`, `digits.`, `digits.digits` and `.digits`
(at least one digit, at most one dot, no stray characters); everything
else raises, i.e. yields `none`. -/
def parseUnsignedFD (cs : List Char) : Option FixedDec :=
  let r := spanDigits cs
  match r.2 with
  | [] => if r.1 = [] then none else some ⟨(digitsVal r.1 : Int), 0⟩
  | '.' :: rest2 =>
    let r2 := spanDigits rest2
    if r2.2 = [] then
      if r.1 = [] ∧ r2.1 = [] then none
      else some ⟨(digitsVal (r.1 ++ r2.1) : Int), r2.1.length⟩
    else none
  | _ => none

/-- Python `float()` on a token drawn from the characters `[0-9.-]`:
an optional leading minus sign, then an unsigned decimal numeral.
`none` models the `ValueError` that `float` raises. -/
def pythonFloat (s : String) : Option FixedDec :=
  match s.data with
  | '-' :: rest =>
    match parseUnsignedFD rest with
    | some d => some ⟨-d.num, d.exp⟩
    | none => none
  | cs => parseUnsignedFD cs

/-- The two marker dialects the script distinguishes: `bambu` is the
`"; FEATURE:"` dialect (the spec's Dialect A), `prusa` the `";TYPE:"`
dialect (the spec's Dialect B). -/
inductive PrinterType
  | bambu
  | prusa
deriving DecidableEq, Repr

/-- `detect_printer_type` from the source: the dialect of the first
line containing either feature marker; `prusa` when no marker occurs
anywhere. -/
def detect_printer_type : List String → PrinterType
  | [] => .prusa
  | line :: rest =>
    if strContains line "; FEATURE:" then .bambu
    else if strContains line ";TYPE:" then .prusa
    else detect_printer_type rest

/-- `get_z_height_from_comment` from the source: extract the Z value
from a `"; Z_HEIGHT: <num>"` or `";Z:<num>"` comment.  `Except.error`
models the uncaught `ValueError` that `float` raises when the captured
`[\d.]+` token is not a valid numeral (e.g. `"1.2.3"` or `"."`). -/
def get_z_height_from_comment (line : String) : Except Unit (Option FixedDec) :=
  if strContains line "; Z_HEIGHT:" then
    match searchNum "; Z_HEIGHT: ".data clsZ line.data with
    | some cap =>
      match pythonFloat (String.mk cap) with
      | some v => .ok (some v)
      | none => .error ()
    | none => .ok none
  else if strContains line ";Z:" then
    match searchNum ";Z:".data clsZ line.data with
    | some cap =>
      match pythonFloat (String.mk cap) with
      | some v => .ok (some v)
      | none => .error ()
    | none => .ok none
  else .ok none

/-- The feature classification held in `perimeter_type`. -/
inductive PerimeterType
  | internal
  | external
deriving DecidableEq, BEq, Repr

/-- The mutable scanning state of `process_gcode`: one field per local
variable of the source that survives across lines. -/
structure St where
  current_layer : Nat
  current_z : FixedDec
  perimeter_type : Option PerimeterType
  perimeter_block_count : Nat
  inside_perimeter_block : Bool
  in_object : Bool
  shifted_blocks : Nat
  perimeter_found : Bool
deriving DecidableEq, Repr

/-- The state at the start of `process_gcode`. -/
def initSt : St := ⟨0, ⟨0, 0⟩, none, 0, false, false, 0, false⟩

/-- A synthetic `G1 Z… F1200 ; <msg>` line, as built by the source's
f-strings (three-decimal Z, trailing newline). -/
def zLine (z : FixedDec) (msg : String) : String :=
  String.mk ("G1 Z".data ++ fmtChars z 3 ++ " F1200 ; ".data ++ msg.data ++ "\n".data)

/-- The rewritten block-opening extrusion line: strip the original,
substitute every `E[-\d.]+` field by the new five-decimal value, and
append the annotation (lines 136-137 of the source).  `v` is the
already multiplied extrusion value. -/
def eRewrite (v : FixedDec) (line : String) : String :=
  String.mk (reSubEGo ('E' :: fmtChars v 5) false (pyStrip line.data) ++
    " ; Adjusted E for inner wall\n".data)

/-- Object-scope tracking (source lines 81-88): `M624` /
`EXCLUDE_OBJECT_START` enters an object, `M625` / `EXCLUDE_OBJECT_END`
leaves it, emitting a reset if a perimeter block was open.  Returns the
updated state and the emitted synthetic lines. -/
def objectUpdate (st : St) (line : String) : St × List String :=
  if strContains line "M624" || strContains line "EXCLUDE_OBJECT_START" then
    ({ st with in_object := true, perimeter_block_count := 0 }, [])
  else if strContains line "M625" || strContains line "EXCLUDE_OBJECT_END" then
    if st.inside_perimeter_block then
      ({ st with in_object := false, inside_perimeter_block := false },
        [zLine st.current_z "Reset Z at object end"])
    else ({ st with in_object := false }, [])
  else (st, [])

/-- The bounds-checked lookahead of source line 92:
`get_z_height_from_comment(lines[line_num + 1]) if line_num + 1 <
len(lines) else None`. -/
def lookZ : Option String → Except Unit (Option FixedDec)
  | some nl => get_z_height_from_comment nl
  | none => .ok none

/-- Layer tracking (source lines 91-97): on a layer-change marker, look
ahead one line for the Z-height comment; update `current_z`,
`current_layer`, `perimeter_block_count` only when a value was parsed.
The lookahead `nxt` is `none` when the marker is the last line. -/
def layerUpdate (st : St) (line : String) (nxt : Option String) : Except Unit St :=
  if strContains line "; CHANGE_LAYER" || strContains line ";LAYER_CHANGE" then
    match lookZ nxt with
    | .error e => .error e
    | .ok (some z) =>
      .ok { st with current_z := z, current_layer := st.current_layer + 1,
                    perimeter_block_count := 0 }
    | .ok none => .ok st
  else .ok st

/-- Feature-marker handling (source lines 102-117): close any open
block, then classify the feature.  The second `inside_perimeter_block`
test in the outer-wall branch reproduces the source's defensive close
verbatim. -/
def featureUpdate (st : St) (line : String) : St × List String :=
  if strContains line "; FEATURE:" || strContains line ";TYPE:" then
    let p : St × List String :=
      if st.inside_perimeter_block then
        ({ st with inside_perimeter_block := false },
          [zLine st.current_z "Reset Z for feature transition"])
      else (st, [])
    if strContains line "; FEATURE: Inner wall" || strContains line ";TYPE:Inner wall" then
      ({ p.1 with perimeter_type := some PerimeterType.internal, perimeter_found := true }, p.2)
    else if strContains line "; FEATURE: Outer wall" || strContains line ";TYPE:Outer wall" then
      if p.1.inside_perimeter_block then
        ({ p.1 with perimeter_type := some PerimeterType.external,
                    inside_perimeter_block := false },
          p.2 ++ [zLine p.1.current_z "Reset Z for outer wall"])
      else ({ p.1 with perimeter_type := some PerimeterType.external }, p.2)
    else ({ p.1 with perimeter_type := none }, p.2)
  else (st, [])

/-- Motion handling for internal perimeters (source lines 120-141).
Returns the updated state, the synthetic lines emitted before the
line, and the (possibly rewritten) line itself; `Except.error` models
the `ValueError` raised when the captured `E[-\d.]+` token is not a
valid numeral. -/
def motionUpdate (zShift mult : FixedDec) (st : St) (line : String) :
    Except Unit (St × List String × String) :=
  if (st.perimeter_type == some PerimeterType.internal) && strStarts line "G1" &&
      strContains line "X" && strContains line "Y" then
    if strContains line "E" then
      if !st.inside_perimeter_block then
        let st' := { st with perimeter_block_count := st.perimeter_block_count + 1,
                             inside_perimeter_block := true,
                             shifted_blocks := st.shifted_blocks + 1 }
        let shiftL := zLine (st.current_z.add zShift) "Z shift for inner wall"
        match searchNum ['E'] clsE line.data with
        | some cap =>
          match pythonFloat (String.mk cap) with
          | some e_value => .ok (st', [shiftL], eRewrite (e_value.mul mult) line)
          | none => .error ()
        | none => .ok (st', [shiftL], line)
      else .ok (st, [], line)
    else if strContains line "F" && !strContains line "E" && st.inside_perimeter_block then
      .ok ({ st with inside_perimeter_block := false },
        [zLine st.current_z "Reset Z after inner wall"], line)
    else .ok (st, [], line)
  else .ok (st, [], line)

/-- The `if in_object:` body (source lines 100-141): feature handling
then motion handling, with the emitted lines in source order. -/
def perimeterUpdate (zShift mult : FixedDec) (st : St) (line : String) :
    Except Unit (St × List String × String) :=
  let fr := featureUpdate st line
  match motionUpdate zShift mult fr.1 line with
  | .ok r => .ok (r.1, fr.2 ++ r.2.1, r.2.2)
  | .error e => .error e

/-- One iteration of the main loop of `process_gcode` (source lines
79-143) on one line, with `nxt` the following input line (the
lookahead reads the original input, never the output).  Returns the
new state, the synthetic lines emitted before the line, and the
(possibly rewritten) line appended last. -/
def processLine (zShift mult : FixedDec) (st : St) (line : String) (nxt : Option String) :
    Except Unit (St × List String × String) :=
  let o := objectUpdate st line
  match layerUpdate o.1 line nxt with
  | .error e => .error e
  | .ok st2 =>
    if st2.in_object then
      match perimeterUpdate zShift mult st2 line with
      | .ok r => .ok (r.1, o.2 ++ r.2.1, r.2.2)
      | .error e => .error e
    else .ok (st2, o.2, line)

/-- The main loop of `process_gcode` over all lines.  The output is
kept per input line: each entry pairs the synthetic lines emitted
before that line with the (possibly rewritten) line itself;
`modified_lines` of the source is its flattening `flattenOut`. -/
def processLines (zShift mult : FixedDec) : St → List String →
    Except Unit (St × List (List String × String))
  | st, [] => .ok (st, [])
  | st, l :: rest =>
    match processLine zShift mult st l rest.head? with
    | .error e => .error e
    | .ok r =>
      match processLines zShift mult r.1 rest with
      | .error e => .error e
      | .ok q => .ok (q.1, (r.2.1, r.2.2) :: q.2)

/-- Flatten the per-line output into the `modified_lines` list of the
source: for each input line, first its synthetic lines, then the
(possibly rewritten) line itself. -/
def flattenOut (d : List (List String × String)) : List String :=
  (d.map fun p => p.1 ++ [p.2]).flatten

/-- `process_gcode` from the source, as a function from the input lines
to the rewritten lines: `z_shift = layer_height * 0.5`, then the single
pass; `Except.error` models an uncaught `ValueError` (in which case the
source writes nothing back). -/
def process_gcode (layer_height extrusion_multiplier : FixedDec) (lines : List String) :
    Except Unit (List String) :=
  match processLines (layer_height.mul ⟨5, 1⟩) extrusion_multiplier initSt lines with
  | .ok r => .ok (flattenOut r.2)
  | .error e => .error e

/-- Reset lines are recognised by their `"Reset Z"` comment; none of
the input-independent synthetic shift lines contains that text. -/
def isReset (s : String) : Bool := strContains s "Reset Z"

/-- Number of reset lines among the synthetic emissions of a structured
output (input lines themselves are not counted). -/
def resetCountD (d : List (List String × String)) : Nat :=
  (d.map fun p => p.1.countP fun s => isReset s).sum

/-- A prefix of `s` is still a prefix after extending `s` on the right. -/
theorem charsHasPre_append (pat : List Char) : ∀ s b : List Char,
    charsHasPre pat s = true → charsHasPre pat (s ++ b) = true := by
  induction pat with
  | nil => intro s b _; simp [charsHasPre]
  | cons p ps ih =>
    intro s b h
    cases s with
    | nil => simp [charsHasPre] at h
    | cons a as =>
      simp only [charsHasPre, Bool.and_eq_true] at h
      simp only [List.cons_append, charsHasPre, Bool.and_eq_true]
      exact ⟨h.1, ih as b h.2⟩

/-- A substring occurrence survives extending the list on the right. -/
theorem charsHasSub_append_left (pat : List Char) : ∀ a b : List Char,
    charsHasSub pat a = true → charsHasSub pat (a ++ b) = true := by
  intro a
  induction a with
  | nil =>
    intro b h
    cases pat with
    | nil =>
      cases b with
      | nil => simpa using h
      | cons x xs => simp [charsHasSub, charsHasPre]
    | cons p ps => simp [charsHasSub, charsHasPre] at h
  | cons c cs ih =>
    intro b h
    simp only [charsHasSub, Bool.or_eq_true] at h
    simp only [List.cons_append, charsHasSub, Bool.or_eq_true]
    rcases h with h | h
    · exact Or.inl (charsHasPre_append pat _ b h)
    · exact Or.inr (ih b h)

/-- A substring occurrence survives extending the list on the left. -/
theorem charsHasSub_append_right (pat : List Char) : ∀ a b : List Char,
    charsHasSub pat b = true → charsHasSub pat (a ++ b) = true := by
  intro a
  induction a with
  | nil => intro b h; simpa using h
  | cons c cs ih =>
    intro b h
    simp only [List.cons_append, charsHasSub, Bool.or_eq_true]
    exact Or.inr (ih b h)

/-- Characters of a matched prefix pattern occur in the list. -/
theorem charsHasPre_mem (pat : List Char) : ∀ s : List Char,
    charsHasPre pat s = true → ∀ c ∈ pat, c ∈ s := by
  induction pat with
  | nil => intro s _ c hc; simp at hc
  | cons p ps ih =>
    intro s h c hc
    cases s with
    | nil => simp [charsHasPre] at h
    | cons a as =>
      simp only [charsHasPre, Bool.and_eq_true, beq_iff_eq] at h
      rcases List.mem_cons.mp hc with rfl | hc
      · exact List.mem_cons.mpr (Or.inl h.1)
      · exact List.mem_cons.mpr (Or.inr (ih as h.2 c hc))

/-- Characters of a matched substring pattern occur in the list. -/
theorem charsHasSub_mem (pat : List Char) : ∀ s : List Char,
    charsHasSub pat s = true → ∀ c ∈ pat, c ∈ s := by
  intro s
  induction s with
  | nil =>
    intro h c hc
    exact charsHasPre_mem pat [] (by simpa [charsHasSub] using h) c hc
  | cons a as ih =>
    intro h c hc
    simp only [charsHasSub, Bool.or_eq_true] at h
    rcases h with h | h
    · exact charsHasPre_mem pat _ h c hc
    · exact List.mem_cons.mpr (Or.inr (ih h c hc))

/-- The rendering of a decimal digit is never the letter `R`. -/
theorem digitChar_ne_R (d : Nat) : digitChar d ≠ 'R' := by
  unfold digitChar
  repeat' split
  all_goals decide

/-- The decimal rendering worker never produces the letter `R`. -/
theorem natDigitsAux_noR : ∀ (fuel n : Nat) (acc : List Char),
    'R' ∉ acc → 'R' ∉ natDigitsAux fuel n acc := by
  intro fuel
  induction fuel with
  | zero => intro n acc h; simpa [natDigitsAux] using h
  | succ f ih =>
    intro n acc h
    unfold natDigitsAux
    split
    · intro hmem
      rcases List.mem_cons.mp hmem with h1 | h1
      · exact digitChar_ne_R n h1.symm
      · exact h h1
    · refine ih _ _ ?_
      intro hmem
      rcases List.mem_cons.mp hmem with h1 | h1
      · exact digitChar_ne_R _ h1.symm
      · exact h h1

/-- The decimal rendering of a natural number never contains `R`. -/
theorem natToStrChars_noR (n : Nat) : 'R' ∉ natToStrChars n :=
  natDigitsAux_noR _ _ _ (by simp)

/-- Fixed-width decimal formatting never produces the letter `R`. -/
theorem fmtChars_noR (x : FixedDec) (k : Nat) : 'R' ∉ fmtChars x k := by
  unfold fmtChars
  intro hmem
  rcases List.mem_append.mp hmem with h1 | h1
  · rcases List.mem_append.mp h1 with h2 | h2
    · split at h2 <;> simp at h2
    · exact natToStrChars_noR _ h2
  · rcases List.mem_cons.mp h1 with h2 | h2
    · exact absurd h2 (by decide)
    · unfold padZeros at h2
      rcases List.mem_append.mp h2 with h3 | h3
      · exact absurd (List.eq_of_mem_replicate h3) (by decide)
      · exact natToStrChars_noR _ h3

/-- A synthetic line whose message contains `"Reset Z"` is recognised
as a reset line. -/
theorem isReset_zLine (z : FixedDec) (msg : String)
    (h : charsHasSub "Reset Z".data msg.data = true) :
    isReset (zLine z msg) = true := by
  show charsHasSub "Reset Z".data
    ("G1 Z".data ++ fmtChars z 3 ++ " F1200 ; ".data ++ msg.data ++ "\n".data) = true
  apply charsHasSub_append_left
  apply charsHasSub_append_right
  exact h

/-- The synthetic Z-shift line is never recognised as a reset line:
its text contains no letter `R` at all. -/
theorem isReset_shift (z : FixedDec) : isReset (zLine z "Z shift for inner wall") = false := by
  cases hb : isReset (zLine z "Z shift for inner wall") with
  | false => rfl
  | true =>
    exfalso
    have hR : 'R' ∈ ("G1 Z".data ++ fmtChars z 3 ++ " F1200 ; ".data ++
        "Z shift for inner wall".data ++ "\n".data) :=
      charsHasSub_mem _ _ hb 'R' (by decide)
    rcases List.mem_append.mp hR with h1 | h1
    swap
    · exact absurd h1 (by decide)
    rcases List.mem_append.mp h1 with h2 | h2
    swap
    · exact absurd h2 (by decide)
    rcases List.mem_append.mp h2 with h3 | h3
    swap
    · exact absurd h3 (by decide)
    rcases List.mem_append.mp h3 with h4 | h4
    · exact absurd h4 (by decide)
    · exact fmtChars_noR z 3 h4

/-- Object tracking emits a reset exactly when it closes an open block,
and never touches `shifted_blocks`. -/
theorem objectUpdate_count (st : St) (l : String) :
    (objectUpdate st l).2.countP (fun s => isReset s) +
      (if (objectUpdate st l).1.inside_perimeter_block then 1 else 0) =
      (if st.inside_perimeter_block then 1 else 0) ∧
    (objectUpdate st l).1.shifted_blocks = st.shifted_blocks := by
  have hr := isReset_zLine st.current_z "Reset Z at object end" (by decide)
  unfold objectUpdate
  repeat' split
  all_goals simp_all

/-- Object tracking never changes the feature classification, the Z
position, the layer counter or the shifted-blocks counter. -/
theorem objectUpdate_fields (st : St) (l : String) :
    (objectUpdate st l).1.perimeter_type = st.perimeter_type ∧
    (objectUpdate st l).1.current_z = st.current_z ∧
    (objectUpdate st l).1.current_layer = st.current_layer ∧
    (objectUpdate st l).1.perimeter_found = st.perimeter_found := by
  unfold objectUpdate
  repeat' split
  all_goals simp

/-- Object tracking with no open block emits nothing and keeps the
block flag closed. -/
theorem objectUpdate_quiet (st : St) (l : String) (h : st.inside_perimeter_block = false) :
    (objectUpdate st l).2 = [] ∧ (objectUpdate st l).1.inside_perimeter_block = false := by
  unfold objectUpdate
  repeat' split
  all_goals simp_all

/-- Layer tracking returning normally preserves every field except the
Z position, the layer counter, and the per-layer block counter. -/
theorem layerUpdate_fields (st : St) (l : String) (nxt : Option String) (st2 : St)
    (h : layerUpdate st l nxt = .ok st2) :
    st2.perimeter_type = st.perimeter_type ∧
    st2.inside_perimeter_block = st.inside_perimeter_block ∧
    st2.shifted_blocks = st.shifted_blocks ∧
    st2.in_object = st.in_object ∧
    st2.perimeter_found = st.perimeter_found := by
  unfold layerUpdate at h
  split at h
  · split at h
    · cases h
    · cases h; simp
    · cases h; simp
  · cases h; simp

/-- With no following line the layer branch never updates anything and
never raises. -/
theorem layerUpdate_none (st : St) (l : String) : layerUpdate st l none = .ok st := by
  unfold layerUpdate
  split <;> rfl

/-- A lookahead line whose Z extraction yields no value behaves exactly
like an absent lookahead. -/
theorem layerUpdate_lookahead (st : St) (l m : String)
    (h : get_z_height_from_comment m = .ok none) :
    layerUpdate st l (some m) = layerUpdate st l none := by
  unfold layerUpdate
  rw [show lookZ (some m) = Except.ok none from h]
  rfl

/-- When the line carries no feature marker of either dialect, the
feature handler does nothing. -/
theorem featureUpdate_skip (st : St) (l : String)
    (hf : strContains l "; FEATURE:" = false) (ht : strContains l ";TYPE:" = false) :
    featureUpdate st l = (st, []) := by
  unfold featureUpdate
  rw [hf, ht]
  simp

/-- Feature handling emits a reset exactly when it closes an open
block (the outer-wall defensive close is unreachable), and never
touches `shifted_blocks`. -/
theorem featureUpdate_count (st : St) (l : String) :
    (featureUpdate st l).2.countP (fun s => isReset s) +
      (if (featureUpdate st l).1.inside_perimeter_block then 1 else 0) =
      (if st.inside_perimeter_block then 1 else 0) ∧
    (featureUpdate st l).1.shifted_blocks = st.shifted_blocks := by
  have h1 := isReset_zLine st.current_z "Reset Z for feature transition" (by decide)
  have h2 := isReset_zLine st.current_z "Reset Z for outer wall" (by decide)
  simp only [featureUpdate]
  repeat' split
  all_goals simp_all

/-- A line that does not start with `G1` never triggers the motion
branch. -/
theorem motionUpdate_skipStart (zs mu : FixedDec) (st : St) (l : String)
    (hs : strStarts l "G1" = false) :
    motionUpdate zs mu st l = .ok (st, [], l) := by
  unfold motionUpdate
  rw [hs]
  simp

/-- When the current feature is not the internal perimeter, the motion
branch never fires. -/
theorem motionUpdate_skipPt (zs mu : FixedDec) (st : St) (l : String)
    (hpt : (st.perimeter_type == some PerimeterType.internal) = false) :
    motionUpdate zs mu st l = .ok (st, [], l) := by
  unfold motionUpdate
  rw [hpt]
  simp

/-- Motion handling: a shift is emitted exactly when a block opens
(incrementing `shifted_blocks`), a reset exactly when one closes. -/
theorem motionUpdate_count (zs mu : FixedDec) (st : St) (l : String)
    (r : St × List String × String) (h : motionUpdate zs mu st l = .ok r) :
    r.2.1.countP (fun s => isReset s) + (if r.1.inside_perimeter_block then 1 else 0) +
      st.shifted_blocks =
      r.1.shifted_blocks + (if st.inside_perimeter_block then 1 else 0) := by
  have h1 := isReset_zLine st.current_z "Reset Z after inner wall" (by decide)
  have h2 := isReset_shift (st.current_z.add zs)
  unfold motionUpdate at h
  repeat' split at h
  all_goals cases h
  all_goals simp_all
  all_goals omega

/-- Motion handling returns the line unchanged except in the
block-opening extrusion rewrite. -/
theorem motionUpdate_line (zs mu : FixedDec) (st : St) (l : String)
    (r : St × List String × String) (h : motionUpdate zs mu st l = .ok r) :
    r.2.2 = l ∨ ∃ v, r.2.2 = eRewrite v l := by
  unfold motionUpdate at h
  repeat' split at h
  all_goals cases h
  all_goals first
    | exact Or.inl rfl
    | exact Or.inr ⟨_, rfl⟩

/-- The perimeter section preserves the reset/shift accounting. -/
theorem perimeterUpdate_count (zs mu : FixedDec) (st : St) (l : String)
    (r : St × List String × String) (h : perimeterUpdate zs mu st l = .ok r) :
    r.2.1.countP (fun s => isReset s) + (if r.1.inside_perimeter_block then 1 else 0) +
      st.shifted_blocks =
      r.1.shifted_blocks + (if st.inside_perimeter_block then 1 else 0) := by
  simp only [perimeterUpdate] at h
  cases hM : motionUpdate zs mu (featureUpdate st l).1 l with
  | error e => rw [hM] at h; cases h
  | ok m =>
    rw [hM] at h
    cases h
    have hf := featureUpdate_count st l
    have hm := motionUpdate_count zs mu (featureUpdate st l).1 l m hM
    dsimp only
    rw [List.countP_append]
    omega

/-- The perimeter section returns the line unchanged except in the
block-opening extrusion rewrite. -/
theorem perimeterUpdate_line (zs mu : FixedDec) (st : St) (l : String)
    (r : St × List String × String) (h : perimeterUpdate zs mu st l = .ok r) :
    r.2.2 = l ∨ ∃ v, r.2.2 = eRewrite v l := by
  simp only [perimeterUpdate] at h
  cases hM : motionUpdate zs mu (featureUpdate st l).1 l with
  | error e => rw [hM] at h; cases h
  | ok m =>
    rw [hM] at h
    cases h
    exact motionUpdate_line zs mu _ l m hM

/-- One processed line preserves the reset/shift accounting: the
resets emitted before the line, plus an open block pending at the end,
balance the blocks opened so far. -/
theorem processLine_count (zs mu : FixedDec) (st : St) (l : String) (nxt : Option String)
    (r : St × List String × String) (h : processLine zs mu st l nxt = .ok r) :
    r.2.1.countP (fun s => isReset s) + (if r.1.inside_perimeter_block then 1 else 0) +
      st.shifted_blocks =
      r.1.shifted_blocks + (if st.inside_perimeter_block then 1 else 0) := by
  obtain ⟨ho1, ho2⟩ := objectUpdate_count st l
  simp only [processLine] at h
  split at h
  · cases h
  · rename_i st2 hL
    obtain ⟨hL1, hL2, hL3, hL4, hL5⟩ := layerUpdate_fields _ _ _ _ hL
    split at h
    · split at h
      · rename_i m hP
        cases h
        have hp := perimeterUpdate_count zs mu st2 l m hP
        rw [hL2, hL3] at hp
        dsimp only
        rw [List.countP_append]
        omega
      · cases h
    · cases h
      dsimp only
      rw [hL2, hL3]
      omega

/-- One processed line returns the original line unchanged except for
the block-opening extrusion rewrite. -/
theorem processLine_line (zs mu : FixedDec) (st : St) (l : String) (nxt : Option String)
    (r : St × List String × String) (h : processLine zs mu st l nxt = .ok r) :
    r.2.2 = l ∨ ∃ v, r.2.2 = eRewrite v l := by
  simp only [processLine] at h
  split at h
  · cases h
  · rename_i st2 hL
    split at h
    · split at h
      · rename_i m hP
        cases h
        exact perimeterUpdate_line zs mu st2 l m hP
      · cases h
    · cases h
      exact Or.inl rfl

/-- On a line without feature markers, a state with no active internal
perimeter and no open block passes the line through untouched (or the
lookahead raises): nothing is emitted, the line is unchanged, and the
no-internal-no-block situation persists. -/
theorem processLine_quiet (zs mu : FixedDec) (st : St) (l : String) (nxt : Option String)
    (hf : strContains l "; FEATURE:" = false) (ht : strContains l ";TYPE:" = false)
    (hpt : st.perimeter_type = none) (hin : st.inside_perimeter_block = false) :
    processLine zs mu st l nxt = .error () ∨
    ∃ st2, processLine zs mu st l nxt = .ok (st2, [], l) ∧
      st2.perimeter_type = none ∧ st2.inside_perimeter_block = false := by
  obtain ⟨hq1, hq2⟩ := objectUpdate_quiet st l hin
  obtain ⟨hop, _, _, _⟩ := objectUpdate_fields st l
  simp only [processLine]
  cases hL : layerUpdate (objectUpdate st l).1 l nxt with
  | error e =>
    left
    rfl
  | ok st2 =>
    obtain ⟨hL1, hL2, hL3, hL4, hL5⟩ := layerUpdate_fields _ _ _ _ hL
    have hpt2 : st2.perimeter_type = none := by rw [hL1, hop, hpt]
    have hin2 : st2.inside_perimeter_block = false := by rw [hL2, hq2]
    right
    refine ⟨st2, ?_, hpt2, hin2⟩
    have hfs := featureUpdate_skip st2 l hf ht
    have hmp := motionUpdate_skipPt zs mu st2 l (by rw [hpt2]; rfl)
    dsimp only
    split
    · simp only [perimeterUpdate, hfs, hmp]
      simp [hq1]
    · simp [hq1]

/-- Reset counting distributes over the per-line output structure. -/
theorem resetCountD_cons (p : List String × String) (d : List (List String × String)) :
    resetCountD (p :: d) = p.1.countP (fun s => isReset s) + resetCountD d := by
  simp [resetCountD]

/-- Over a whole run, the resets emitted plus a pending open block
balance the opened (shifted) blocks. -/
theorem processLines_count (zs mu : FixedDec) : ∀ (lines : List String) (st st' : St)
    (d : List (List String × String)), processLines zs mu st lines = .ok (st', d) →
    resetCountD d + (if st'.inside_perimeter_block then 1 else 0) + st.shifted_blocks =
      st'.shifted_blocks + (if st.inside_perimeter_block then 1 else 0) := by
  intro lines
  induction lines with
  | nil =>
    intro st st' d h
    simp only [processLines] at h
    cases h
    simp only [resetCountD, List.map_nil, List.sum_nil]
    omega
  | cons l rest ih =>
    intro st st' d h
    simp only [processLines] at h
    split at h
    · cases h
    · rename_i r hP
      split at h
      · cases h
      · rename_i q hQ
        cases h
        have h1 := processLine_count zs mu st l rest.head? r hP
        have h2 := ih r.1 q.1 q.2 hQ
        rw [resetCountD_cons]
        dsimp only
        omega

/-- Over a whole run, the output entry of every input line carries the
line itself, unchanged except for the block-opening extrusion
rewrite. -/
theorem processLines_rel (zs mu : FixedDec) : ∀ (lines : List String) (st st' : St)
    (d : List (List String × String)), processLines zs mu st lines = .ok (st', d) →
    List.Forall₂ (fun l p => p.2 = l ∨ ∃ v, p.2 = eRewrite v l) lines d := by
  intro lines
  induction lines with
  | nil =>
    intro st st' d h
    simp only [processLines] at h
    cases h
    exact List.Forall₂.nil
  | cons l rest ih =>
    intro st st' d h
    simp only [processLines] at h
    split at h
    · cases h
    · rename_i r hP
      split at h
      · cases h
      · rename_i q hQ
        cases h
        exact List.Forall₂.cons (processLine_line zs mu st l rest.head? r hP) (ih r.1 q.1 q.2 hQ)

/-- A run over lines without feature markers, starting with no active
internal perimeter and no open block, reproduces every line verbatim
with no synthetic emissions (when it does not raise). -/
theorem processLines_quiet (zs mu : FixedDec) : ∀ (lines : List String) (st : St),
    (∀ l ∈ lines, strContains l "; FEATURE:" = false ∧ strContains l ";TYPE:" = false) →
    st.perimeter_type = none → st.inside_perimeter_block = false →
    ∀ (st' : St) (d : List (List String × String)),
      processLines zs mu st lines = .ok (st', d) →
      d = lines.map (fun l => ([], l)) := by
  intro lines
  induction lines with
  | nil =>
    intro st _ _ _ st' d h
    simp only [processLines] at h
    cases h
    simp
  | cons l rest ih =>
    intro st hm hpt hin st' d h
    simp only [processLines] at h
    rcases processLine_quiet zs mu st l rest.head? (hm l (by simp)).1 (hm l (by simp)).2
        hpt hin with he | ⟨st2, hok, hpt2, hin2⟩
    · rw [he] at h
      cases h
    · rw [hok] at h
      dsimp only at h
      split at h
      · cases h
      · rename_i q hQ
        cases h
        have := ih st2 (fun x hx => hm x (List.mem_cons_of_mem l hx)) hpt2 hin2 q.1 q.2 hQ
        simp [this]

/-- Flattening a run with no synthetic emissions gives back the input
lines themselves. -/
theorem flattenOut_map (lines : List String) :
    flattenOut (lines.map fun l => ([], l)) = lines := by
  induction lines with
  | nil => rfl
  | cons l rest ih => simp [flattenOut] at ih ⊢; exact ih

/-- When the line carries no object marker of either convention, the
object tracker does nothing. -/
theorem objectUpdate_skip (st : St) (l : String)
    (h1 : (strContains l "M624" || strContains l "EXCLUDE_OBJECT_START") = false)
    (h2 : (strContains l "M625" || strContains l "EXCLUDE_OBJECT_END") = false) :
    objectUpdate st l = (st, []) := by
  unfold objectUpdate
  rw [h1, h2]
  simp

/-- Unfolding equation of `processLines` on a nonempty input, stated
for rewriting. -/
theorem processLines_cons_eq (zs mu : FixedDec) (st : St) (l : String) (rest : List String) :
    processLines zs mu st (l :: rest) =
      match processLine zs mu st l rest.head? with
      | .error e => .error e
      | .ok r =>
        match processLines zs mu r.1 rest with
        | .error e => .error e
        | .ok q => .ok (q.1, (r.2.1, r.2.2) :: q.2) := rfl

/-- Processing a bare layer-change marker line with no following line
is a complete no-op: no exception, no state change, no emission, the
line passes through verbatim. -/
theorem marker_line_noop (zs mu : FixedDec) (st : St) (m : String)
    (hm : m = "; CHANGE_LAYER" ∨ m = ";LAYER_CHANGE") :
    processLine zs mu st m none = .ok (st, [], m) := by
  have hobj : objectUpdate st m = (st, []) := by
    rcases hm with rfl | rfl <;> exact objectUpdate_skip st _ (by decide) (by decide)
  have hfs : featureUpdate st m = (st, []) := by
    rcases hm with rfl | rfl <;> exact featureUpdate_skip st _ (by decide) (by decide)
  have hms : motionUpdate zs mu st m = .ok (st, [], m) := by
    rcases hm with rfl | rfl <;> exact motionUpdate_skipStart zs mu st _ (by decide)
  simp only [processLine, hobj, layerUpdate_none]
  split
  · simp only [perimeterUpdate, hfs, hms]
    simp
  · rfl

/-- A lookahead line from which no Z value is extracted behaves
exactly like an absent lookahead. -/
theorem processLine_lookahead (zs mu : FixedDec) (st : St) (l m : String)
    (h : get_z_height_from_comment m = .ok none) :
    processLine zs mu st l (some m) = processLine zs mu st l none := by
  simp only [processLine]
  rw [layerUpdate_lookahead (objectUpdate st l).1 l m h]

/-- With no feature marker anywhere, the detector falls through to the
`prusa` default. -/
theorem detect_default (lines : List String)
    (hm : ∀ l ∈ lines, strContains l "; FEATURE:" = false ∧ strContains l ";TYPE:" = false) :
    detect_printer_type lines = PrinterType.prusa := by
  induction lines with
  | nil => rfl
  | cons l rest ih =>
    have h := hm l (List.mem_cons_self l rest)
    simp only [detect_printer_type, h.1, h.2, Bool.false_eq_true, if_false]
    exact ih fun x hx => hm x (List.mem_cons_of_mem l hx)

/-- C1, counterexample: on an input with no feature marker of either
dialect the detector returns `prusa`, the `";TYPE:"` dialect — i.e.
Dialect B — not the claimed Dialect A (`bambu`, the `"; FEATURE:"`
dialect of the spec's marker table). -/
theorem C1_counterexample :
    detect_printer_type ["G1 X0 Y0"] = PrinterType.prusa ∧
    PrinterType.prusa ≠ PrinterType.bambu ∧
    strContains "G1 X0 Y0" "; FEATURE:" = false ∧
    strContains "G1 X0 Y0" ";TYPE:" = false :=
  ⟨rfl, by decide, rfl, rfl⟩

/-- C1, amended: for every input line sequence containing no
occurrence of either dialect's feature marker, `detect_printer_type`
returns Dialect B (`prusa`, the code's default), and whenever the run
completes the rewritten output equals the input verbatim. -/
theorem C1_amended (lh mu : FixedDec) (lines : List String)
    (hm : ∀ l ∈ lines, strContains l "; FEATURE:" = false ∧ strContains l ";TYPE:" = false) :
    detect_printer_type lines = PrinterType.prusa ∧
    ∀ out, process_gcode lh mu lines = .ok out → out = lines := by
  refine ⟨detect_default lines hm, ?_⟩
  intro out hout
  unfold process_gcode at hout
  split at hout
  · rename_i r heq
    cases hout
    have hq := processLines_quiet (lh.mul ⟨5, 1⟩) mu lines initSt hm rfl rfl r.1 r.2 heq
    rw [hq, flattenOut_map]
  · cases hout

/-- C1, witness for the amended theorem at a concrete marker-free
input. -/
theorem C1_amended_witness :
    detect_printer_type ["T7 B8"] = PrinterType.prusa ∧
    process_gcode ⟨2, 1⟩ ⟨1, 0⟩ ["T7 B8"] = .ok ["T7 B8"] :=
  ⟨(C1_amended ⟨2, 1⟩ ⟨1, 0⟩ ["T7 B8"] (by decide)).1, rfl⟩

/-- C2, counterexample: with an inner-wall block open, the line
`"G1 F2400"` (feed field, no extrusion field) triggers nothing — it
lacks the `X` and `Y` fields required by the motion gate — so no reset
line is emitted anywhere in the run and the block stays open, contrary
to the claim. -/
theorem C2_counterexample :
    process_gcode ⟨2, 1⟩ ⟨2, 0⟩ ["M624", "; FEATURE: Inner wall", "G1 X1 Y1 E0.5", "G1 F2400"] =
      .ok ["M624", "; FEATURE: Inner wall", "G1 Z0.100 F1200 ; Z shift for inner wall\n",
        "G1 X1 Y1 E1.00000 ; Adjusted E for inner wall\n", "G1 F2400"] ∧
    (processLines ⟨10, 2⟩ ⟨2, 0⟩ initSt
        ["M624", "; FEATURE: Inner wall", "G1 X1 Y1 E0.5", "G1 F2400"]).map
      (fun r => (r.1.inside_perimeter_block, resetCountD r.2)) = Except.ok (true, 0) :=
  ⟨rfl, rfl⟩

/-- C2, amended: when an inner-wall block is open and the next
processed line carries `X` and `Y` (so it passes the motion gate), an
`F` field and no `E` character — e.g. `"G1 X2 Y2 F2400"` — the reset
line `G1 Z<current_z:.3f> F1200 ; Reset Z after inner wall` is emitted
immediately before it and the block closes. -/
theorem C2_amended (zs mu : FixedDec) (st : St) (nxt : Option String)
    (hio : st.in_object = true) (hpt : st.perimeter_type = some PerimeterType.internal)
    (hin : st.inside_perimeter_block = true) :
    processLine zs mu st "G1 X2 Y2 F2400" nxt =
      .ok ({ st with inside_perimeter_block := false },
        [zLine st.current_z "Reset Z after inner wall"], "G1 X2 Y2 F2400") := by
  obtain ⟨cl, cz, pt, pbc, ipb, io, sb, pf⟩ := st
  subst hio hpt hin
  rfl

/-- C2, witness for the amended theorem at a concrete state. -/
theorem C2_amended_witness :
    processLine ⟨10, 2⟩ ⟨2, 0⟩ ⟨0, ⟨0, 0⟩, some PerimeterType.internal, 1, true, true, 1, true⟩
        "G1 X2 Y2 F2400" none =
      .ok (⟨0, ⟨0, 0⟩, some PerimeterType.internal, 1, false, true, 1, true⟩,
        ["G1 Z0.000 F1200 ; Reset Z after inner wall\n"], "G1 X2 Y2 F2400") := by
  rw [C2_amended ⟨10, 2⟩ ⟨2, 0⟩
    ⟨0, ⟨0, 0⟩, some PerimeterType.internal, 1, true, true, 1, true⟩ none rfl rfl rfl]
  rfl

/-- C3, counterexample: after processing `M625` the run has
`in_object = false` while `perimeter_type` is still `internal` — the
object-end handler never clears `perimeter_type`, contrary to the
claimed invariant. -/
theorem C3_counterexample :
    (processLines ⟨10, 2⟩ ⟨2, 0⟩ initSt ["M624", "; FEATURE: Inner wall", "M625"]).map
      (fun r => (r.1.in_object, r.1.perimeter_type)) =
      Except.ok (false, some PerimeterType.internal) := rfl

/-- C3, amended: an object-end marker line sets `in_object := false`,
closes an open block with exactly one reset emission, but leaves
`perimeter_type` untouched (it may stay non-None while
`in_object = false`). -/
theorem C3_amended (st : St) (l : String)
    (h1 : (strContains l "M624" || strContains l "EXCLUDE_OBJECT_START") = false)
    (h2 : (strContains l "M625" || strContains l "EXCLUDE_OBJECT_END") = true) :
    objectUpdate st l =
      ({ st with in_object := false, inside_perimeter_block := false },
        if st.inside_perimeter_block then [zLine st.current_z "Reset Z at object end"]
        else []) := by
  unfold objectUpdate
  rw [h1, h2]
  obtain ⟨cl, cz, pt, pbc, ipb, io, sb, pf⟩ := st
  cases ipb <;> simp

/-- C3, witness for the amended theorem at a concrete state and the
literal `M625` line. -/
theorem C3_amended_witness :
    objectUpdate ⟨3, ⟨5, 1⟩, some PerimeterType.internal, 2, true, true, 2, true⟩ "M625" =
      (⟨3, ⟨5, 1⟩, some PerimeterType.internal, 2, false, false, 2, true⟩,
        ["G1 Z0.500 F1200 ; Reset Z at object end\n"]) := by
  rw [C3_amended ⟨3, ⟨5, 1⟩, some PerimeterType.internal, 2, true, true, 2, true⟩ "M625"
    (by decide) (by decide)]
  rfl

/-- C4: the Z-height extractor is not total — on a line whose captured
`[\d.]+` token is not a valid numeral, `float` raises (modelled as
`Except.error`), instead of the claimed non-fatal absence. -/
theorem C4_float_raises :
    get_z_height_from_comment "; Z_HEIGHT: 1.2.3" = Except.error () ∧
    get_z_height_from_comment ";Z:." = Except.error () :=
  ⟨rfl, rfl⟩

/-- C5, counterexample: while the internal perimeter is active, the
motion line `"G1 X1 Y1 ; E"` contains no extrusion field of the form
`E<number>` (the `E` search fails), yet it is treated as an extrusion
move: a block opens and a shift line is emitted — the code tests for
the bare character `E`, not for `E<number>`. -/
theorem C5_counterexample :
    (processLines ⟨10, 2⟩ ⟨2, 0⟩ initSt ["M624", "; FEATURE: Inner wall", "G1 X1 Y1 ; E"]).map
      (fun r => (r.1.shifted_blocks, r.1.inside_perimeter_block, r.2)) =
      Except.ok (1, true,
        [([], "M624"), ([], "; FEATURE: Inner wall"),
          (["G1 Z0.100 F1200 ; Z shift for inner wall\n"], "G1 X1 Y1 ; E")]) ∧
    searchNum ['E'] clsE "G1 X1 Y1 ; E".data = none :=
  ⟨rfl, rfl⟩

/-- C5, amended: for a candidate motion line processed while the
internal perimeter is active, the branch taken is decided by plain
substring tests — `"E" in line` opens a block (when none is open) and
`"F" in line and not "E" in line` with an open block closes it; the
remaining cases pass the line through untouched. -/
theorem C5_amended (zs mu : FixedDec) (st : St) (l : String)
    (hpt : st.perimeter_type = some PerimeterType.internal)
    (hm : (strStarts l "G1" && strContains l "X" && strContains l "Y") = true) :
    (strContains l "E" = true → st.inside_perimeter_block = false →
      (motionUpdate zs mu st l = .error () ∨
        ∃ v, motionUpdate zs mu st l =
          .ok ({ st with perimeter_block_count := st.perimeter_block_count + 1,
                         inside_perimeter_block := true,
                         shifted_blocks := st.shifted_blocks + 1 },
            [zLine (st.current_z.add zs) "Z shift for inner wall"], v))) ∧
    (strContains l "E" = true → st.inside_perimeter_block = true →
      motionUpdate zs mu st l = .ok (st, [], l)) ∧
    (strContains l "E" = false → strContains l "F" = true →
      st.inside_perimeter_block = true →
      motionUpdate zs mu st l =
        .ok ({ st with inside_perimeter_block := false },
          [zLine st.current_z "Reset Z after inner wall"], l)) ∧
    (strContains l "E" = false → st.inside_perimeter_block = false →
      motionUpdate zs mu st l = .ok (st, [], l)) ∧
    (strContains l "E" = false → strContains l "F" = false →
      motionUpdate zs mu st l = .ok (st, [], l)) := by
  have hcond : ((st.perimeter_type == some PerimeterType.internal) && strStarts l "G1" &&
      strContains l "X" && strContains l "Y") = true := by
    rw [hpt]
    simp only [show (some PerimeterType.internal == some PerimeterType.internal) = true from rfl,
      Bool.true_and]
    exact hm
  refine ⟨?_, ?_, ?_, ?_, ?_⟩
  · intro hE hI
    unfold motionUpdate
    rw [hcond]
    cases hS : searchNum ['E'] clsE l.data with
    | none => exact Or.inr ⟨l, by simp [hE, hI, hS]⟩
    | some cap =>
      cases hPF : pythonFloat (String.mk cap) with
      | none => exact Or.inl (by simp [hE, hI, hS, hPF])
      | some v => exact Or.inr ⟨eRewrite (v.mul mu) l, by simp [hE, hI, hS, hPF]⟩
  · intro hE hI
    unfold motionUpdate
    simp [hcond, hE, hI]
  · intro hE hF hI
    unfold motionUpdate
    simp [hcond, hE, hF, hI]
  · intro hE hI
    unfold motionUpdate
    simp [hcond, hE, hI]
  · intro hE hF
    unfold motionUpdate
    simp [hcond, hE, hF]

/-- C5, witness for the amended theorem: an internal-perimeter motion
line without the character `E` and with no open block passes through
untouched. -/
theorem C5_amended_witness :
    motionUpdate ⟨10, 2⟩ ⟨2, 0⟩ ⟨0, ⟨0, 0⟩, some PerimeterType.internal, 0, false, true, 0, true⟩
        "G1 X9 Y9 F100" =
      .ok (⟨0, ⟨0, 0⟩, some PerimeterType.internal, 0, false, true, 0, true⟩, [],
        "G1 X9 Y9 F100") :=
  (C5_amended ⟨10, 2⟩ ⟨2, 0⟩ ⟨0, ⟨0, 0⟩, some PerimeterType.internal, 0, false, true, 0, true⟩
    "G1 X9 Y9 F100" rfl (by decide)).2.2.2.1 rfl rfl

/-- C6: Scenario A — with `layer_height = 0.2`,
`extrusion_multiplier = 2.0`, inside an active object at
`current_z = 1.0`, the marker `"; FEATURE: Inner wall"` followed by
`"G1 X1 Y1 E0.5"` produces exactly the shift line
`G1 Z1.100 F1200 ; Z shift for inner wall` followed by the rewritten
line `G1 X1 Y1 E1.00000 ; Adjusted E for inner wall` (new E = old E
times the multiplier, five decimals). -/
theorem C6_scenarioA :
    process_gcode ⟨2, 1⟩ ⟨2, 0⟩
        ["M624", ";LAYER_CHANGE", ";Z:1.0", "; FEATURE: Inner wall", "G1 X1 Y1 E0.5"] =
      .ok ["M624", ";LAYER_CHANGE", ";Z:1.0", "; FEATURE: Inner wall",
        "G1 Z1.100 F1200 ; Z shift for inner wall\n",
        "G1 X1 Y1 E1.00000 ; Adjusted E for inner wall\n"] := rfl

/-- C7, counterexample: a block opened by the final line of the input
is never closed — the run ends with the block open and zero reset
lines emitted, contrary to "every opened block is closed by exactly
one reset". -/
theorem C7_counterexample :
    (processLines ⟨10, 2⟩ ⟨2, 0⟩ initSt ["M624", "; FEATURE: Inner wall", "G1 X7 Y7 E0.5"]).map
      (fun r => (r.1.shifted_blocks, r.1.inside_perimeter_block, resetCountD r.2)) =
      Except.ok (1, true, 0) := rfl

/-- C7, amended: over any completed run the number of emitted reset
lines equals the number of opened blocks minus one when a block is
still open at end of input — so every opened block is closed by at
most one reset, exactly one unless the input ends first, and the
outer-wall defensive close never duplicates an emission. -/
theorem C7_amended (zs mu : FixedDec) (lines : List String) (st' : St)
    (d : List (List String × String)) (h : processLines zs mu initSt lines = .ok (st', d)) :
    resetCountD d + (if st'.inside_perimeter_block then 1 else 0) = st'.shifted_blocks := by
  have hc := processLines_count zs mu lines initSt st' d h
  simpa [initSt] using hc

/-- C7, witness for the amended theorem on a one-line run. -/
theorem C7_amended_witness :
    resetCountD [([], "Q42")] + (if initSt.inside_perimeter_block then 1 else 0) =
      initSt.shifted_blocks :=
  C7_amended ⟨10, 2⟩ ⟨2, 0⟩ ["Q42"] initSt [([], "Q42")] rfl

/-- C8, counterexample: an input whose last line contains a
layer-change marker can still abort — an earlier layer-change
lookahead that captures the malformed numeral `1.2.3` raises, so "the
run completes without exception" fails as a universal statement. -/
theorem C8_counterexample :
    process_gcode ⟨2, 1⟩ ⟨2, 0⟩ [";LAYER_CHANGE", "; Z_HEIGHT: 1.2.3 ;LAYER_CHANGE"] =
      Except.error () ∧
    strContains "; Z_HEIGHT: 1.2.3 ;LAYER_CHANGE" ";LAYER_CHANGE" = true :=
  ⟨rfl, rfl⟩

/-- C8, amended: appending a bare layer-change marker line as the last
line of the input is bounds-checked and inert — the final marker's
lookahead finds no line, raises nothing, changes no state, and the
marker is emitted verbatim; the whole run completes exactly when the
run on the preceding lines completes. -/
theorem C8_amended (zs mu : FixedDec) (m : String)
    (hmk : m = "; CHANGE_LAYER" ∨ m = ";LAYER_CHANGE") (pre : List String) :
    ∀ st : St, processLines zs mu st (pre ++ [m]) =
      (processLines zs mu st pre).map (fun r => (r.1, r.2 ++ [([], m)])) := by
  have hz : get_z_height_from_comment m = .ok none := by
    rcases hmk with rfl | rfl <;> rfl
  induction pre with
  | nil =>
    intro st
    simp only [List.nil_append, processLines, List.head?_nil]
    rw [marker_line_noop zs mu st m hmk]
    rfl
  | cons c cs ih =>
    intro st
    have hstep : processLine zs mu st c (cs ++ [m]).head? = processLine zs mu st c cs.head? := by
      cases cs with
      | nil => exact processLine_lookahead zs mu st c m hz
      | cons c2 cs2 => rfl
    rw [show (c :: cs) ++ [m] = c :: (cs ++ [m]) from rfl]
    rw [processLines_cons_eq zs mu st c (cs ++ [m]), processLines_cons_eq zs mu st c cs]
    rw [hstep]
    cases hP : processLine zs mu st c cs.head? with
    | error e => rfl
    | ok r =>
      dsimp only
      rw [ih r.1]
      cases hQ : processLines zs mu r.1 cs with
      | error e2 => rfl
      | ok q => simp [Except.map]

/-- C8, witness for the amended theorem on the empty prefix. -/
theorem C8_amended_witness :
    processLines ⟨10, 2⟩ ⟨2, 0⟩ initSt ["; CHANGE_LAYER"] =
      (processLines ⟨10, 2⟩ ⟨2, 0⟩ initSt []).map
        (fun r => (r.1, r.2 ++ [([], "; CHANGE_LAYER")])) :=
  C8_amended ⟨10, 2⟩ ⟨2, 0⟩ "; CHANGE_LAYER" (Or.inl rfl) [] initSt

/-- C9: the transform is not idempotent — rerunning the pass on its
own output re-shifts the already shifted block and multiplies the
extrusion again, yielding a different line sequence. -/
theorem C9_not_idempotent :
    process_gcode ⟨2, 1⟩ ⟨2, 0⟩ ["M624", "; FEATURE: Inner wall", "G1 X1 Y1 E1"] =
      .ok ["M624", "; FEATURE: Inner wall", "G1 Z0.100 F1200 ; Z shift for inner wall\n",
        "G1 X1 Y1 E2.00000 ; Adjusted E for inner wall\n"] ∧
    process_gcode ⟨2, 1⟩ ⟨2, 0⟩
        ["M624", "; FEATURE: Inner wall", "G1 Z0.100 F1200 ; Z shift for inner wall\n",
          "G1 X1 Y1 E2.00000 ; Adjusted E for inner wall\n"] =
      .ok ["M624", "; FEATURE: Inner wall", "G1 Z0.100 F1200 ; Z shift for inner wall\n",
        "G1 Z0.100 F1200 ; Z shift for inner wall\n",
        "G1 X1 Y1 E4.00000 ; Adjusted E for inner wall ; Adjusted E for inner wall\n"] ∧
    ["M624", "; FEATURE: Inner wall", "G1 Z0.100 F1200 ; Z shift for inner wall\n",
      "G1 X1 Y1 E2.00000 ; Adjusted E for inner wall\n"] ≠
    ["M624", "; FEATURE: Inner wall", "G1 Z0.100 F1200 ; Z shift for inner wall\n",
      "G1 Z0.100 F1200 ; Z shift for inner wall\n",
      "G1 X1 Y1 E4.00000 ; Adjusted E for inner wall ; Adjusted E for inner wall\n"] :=
  ⟨rfl, rfl, by decide⟩

/-- C10: the output is the in-order concatenation, over the input
lines, of the synthetic lines emitted before each line followed by the
line itself — every input line appears exactly once, in order, and is
unchanged except for the block-opening extrusion rewrite-plus-
annotation (`eRewrite`). -/
theorem C10_output_structure (lh mu : FixedDec) (lines : List String) (st' : St)
    (d : List (List String × String))
    (h : processLines (lh.mul ⟨5, 1⟩) mu initSt lines = .ok (st', d)) :
    process_gcode lh mu lines = .ok (flattenOut d) ∧
    List.Forall₂ (fun l p => p.2 = l ∨ ∃ v, p.2 = eRewrite v l) lines d := by
  constructor
  · unfold process_gcode
    rw [h]
  · exact processLines_rel _ _ lines initSt st' d h

/-- C10, witness on a one-line input. -/
theorem C10_output_structure_witness :
    process_gcode ⟨2, 1⟩ ⟨2, 0⟩ ["K9"] = .ok (flattenOut [([], "K9")]) ∧
    List.Forall₂ (fun (l : String) (p : List String × String) => p.2 = l ∨ ∃ v, p.2 = eRewrite v l)
      ["K9"] [([], "K9")] :=
  C10_output_structure ⟨2, 1⟩ ⟨2, 0⟩ ["K9"] initSt [([], "K9")] rfl
